import Mathlib

/-!
Verification of the patient registration application (data-access layer,
schema manager, connection singleton, form controller, validator).

The definitions below are shallow embeddings of the TypeScript source:
the DbManager module (initSchema, initDatabase, registerPatient,
getAllPatients, searchPatientsByName, executeQuery), the patientService
wrappers, the useForm hook and validatePatientForm.  The embedded
PostgreSQL engine (PGlite) is modelled only at the semantics of the five
fixed statements the repository issues: LIKE/ILIKE pattern matching,
ORDER BY sorting, parameter normalization to NULL, catalog checks and
additive ALTERs, and the success/data/error envelope.
-/

/-- A SQL parameter or cell value as bound by the data layer: either NULL
or a text value.  All values the form sends are strings, so this covers
every parameter the repository binds. -/
inductive SqlValue
  | null
  | str (s : String)
deriving DecidableEq

/-- Tries the given continuation on the list itself and on every suffix of
it; used for the percent wildcard, which may consume any prefix. -/
def anySuffix (f : List Char → Bool) : List Char → Bool
  | [] => f []
  | c :: s' => f (c :: s') || anySuffix f s'

/-- Semantics of a SQL LIKE pattern (without an escape character, which no
pattern built by this repository contains for wildcard-free terms):
percent matches any sequence of characters, underscore matches any single
character, any other pattern character matches itself.  This is the
engine model for the ILIKE statement issued by searchPatientsByName. -/
def likeMatch : List Char → List Char → Bool
  | [], s => s.isEmpty
  | p :: ps, s =>
    if p = '%' then anySuffix (likeMatch ps) s
    else
      match s with
      | [] => false
      | c :: s' => (if p = '_' then true else p == c) && likeMatch ps s'

/-- Lower-casing of a character list, modelling the case folding the
engine applies on both sides of ILIKE. -/
def lowerL (cs : List Char) : List Char := cs.map Char.toLower

/-- Decides whether the first list occurs at the head of the second. -/
def isSubAt : List Char → List Char → Bool
  | [], _ => true
  | _ :: _, [] => false
  | a :: as, b :: bs => a == b && isSubAt as bs

/-- Decides whether the first list occurs contiguously anywhere inside the
second: the plain substring relation. -/
def subListOf (n : List Char) : List Char → Bool
  | [] => isSubAt n []
  | c :: hs => isSubAt n (c :: hs) || subListOf n hs

/-- Case-insensitive substring containment between strings; this is the
specification-side reading of the both-ends-wildcarded ILIKE search. -/
def containsCI (needle hay : String) : Bool :=
  subListOf (lowerL needle.data) (lowerL hay.data)

/-- The ILIKE operator of the engine: LIKE after case folding both the
value and the pattern. -/
def ilikeMatches (value : String) (pat : List Char) : Bool :=
  likeMatch (lowerL pat) (lowerL value.data)

/-- A stored patient row, restricted to the columns that the listing and
search operations inspect (the id stands for the rest of the row and
keeps distinct rows distinct). -/
structure PatientRow where
  id : Nat
  first_name : String
  last_name : String
deriving DecidableEq

/-- Lexicographic strict comparison of character lists by code point,
modelling the text ordering the engine applies in ORDER BY. -/
def listLexLT : List Char → List Char → Bool
  | [], [] => false
  | [], _ :: _ => true
  | _ :: _, [] => false
  | a :: as, b :: bs =>
    if a.toNat < b.toNat then true
    else if b.toNat < a.toNat then false
    else listLexLT as bs

/-- Strict text ordering on strings (engine collation model). -/
def strLT (a b : String) : Bool := listLexLT a.data b.data

/-- Reflexive text ordering on strings: not strictly greater. -/
def strLE (a b : String) : Bool := !(strLT b a)

theorem char_eq_of_toNat_eq {a b : Char} (h : a.toNat = b.toNat) : a = b :=
  Char.ext (UInt32.ext h)

theorem listLexLT_irrefl (a : List Char) : listLexLT a a = false := by
  induction a with
  | nil => rfl
  | cons c as ih => simp [listLexLT, ih]

theorem listLexLT_trans {a b c : List Char} (h1 : listLexLT a b = true)
    (h2 : listLexLT b c = true) : listLexLT a c = true := by
  induction a generalizing b c with
  | nil =>
    cases c with
    | nil =>
      cases b with
      | nil => exact absurd h1 (by simp [listLexLT])
      | cons y bs => exact absurd h2 (by simp [listLexLT])
    | cons z cs => simp [listLexLT]
  | cons x as ih =>
    cases b with
    | nil => exact absurd h1 (by simp [listLexLT])
    | cons y bs =>
      cases c with
      | nil => exact absurd h2 (by simp [listLexLT])
      | cons z cs =>
        simp only [listLexLT] at h1 h2 ⊢
        split_ifs at h1 h2 ⊢ <;>
          first
          | rfl
          | omega
          | exact ih h1 h2

theorem listLexLT_asymm {a b : List Char} (h1 : listLexLT a b = true)
    (h2 : listLexLT b a = true) : False := by
  have := listLexLT_trans h1 h2
  rw [listLexLT_irrefl] at this
  exact Bool.false_ne_true this

theorem bool_eq_false {b : Bool} (h : ¬ b = true) : b = false := by
  cases b
  · rfl
  · exact absurd rfl h

theorem listLexLT_connected {a b : List Char} (h1 : listLexLT a b = false)
    (h2 : listLexLT b a = false) : a = b := by
  induction a generalizing b with
  | nil =>
    cases b with
    | nil => rfl
    | cons y bs => exact absurd h1 (by simp [listLexLT])
  | cons x as ih =>
    cases b with
    | nil => exact absurd h2 (by simp [listLexLT])
    | cons y bs =>
      simp only [listLexLT] at h1 h2
      rcases Nat.lt_trichotomy x.toNat y.toNat with hxy | hxy | hxy
      · rw [if_pos hxy] at h1
        exact absurd h1 (by simp)
      · have hxy' : ¬ x.toNat < y.toNat := by omega
        have hyx : ¬ y.toNat < x.toNat := by omega
        rw [if_neg hxy', if_neg hyx] at h1
        rw [if_neg hyx, if_neg hxy'] at h2
        exact congrArg₂ List.cons (char_eq_of_toNat_eq (by omega)) (ih h1 h2)
      · rw [if_pos hxy] at h2
        exact absurd h2 (by simp)

theorem strLT_asymm {a b : String} (h1 : strLT a b = true) (h2 : strLT b a = true) :
    False := listLexLT_asymm h1 h2

theorem strLT_connected {a b : String} (h1 : strLT a b = false)
    (h2 : strLT b a = false) : a = b := by
  cases a with
  | mk da =>
    cases b with
    | mk db =>
      exact congrArg String.mk (listLexLT_connected h1 h2)

/-- The ORDER BY last_name, first_name comparison used by getAllPatients
and searchPatientsByName: lexicographic on the pair of names under the
engine collation model. -/
def nameLE (p q : PatientRow) : Prop :=
  strLT p.last_name q.last_name = true ∨
    (p.last_name = q.last_name ∧ strLE p.first_name q.first_name = true)

instance : DecidableRel nameLE := fun _ _ =>
  inferInstanceAs (Decidable (_ ∨ _ ∧ _))

theorem strLT_false_of_true {a b : String} (h : strLT a b = true) : strLT b a = false :=
  bool_eq_false fun h' => strLT_asymm h h'

instance : IsTotal PatientRow nameLE where
  total p q := by
    by_cases hpq : strLT p.last_name q.last_name = true
    · exact Or.inl (Or.inl hpq)
    · by_cases hqp : strLT q.last_name p.last_name = true
      · exact Or.inr (Or.inl hqp)
      · have heq : p.last_name = q.last_name :=
          strLT_connected (bool_eq_false hpq) (bool_eq_false hqp)
        by_cases hg : strLT q.first_name p.first_name = true
        · refine Or.inr (Or.inr ⟨heq.symm, ?_⟩)
          unfold strLE
          rw [strLT_false_of_true hg]
          rfl
        · refine Or.inl (Or.inr ⟨heq, ?_⟩)
          unfold strLE
          rw [bool_eq_false hg]
          rfl

instance : IsTrans PatientRow nameLE where
  trans p q r hpq hqr := by
    rcases hpq with h1 | ⟨h1, h1'⟩
    · rcases hqr with h2 | ⟨h2, _⟩
      · exact Or.inl (listLexLT_trans h1 h2)
      · exact Or.inl (h2 ▸ h1)
    · rcases hqr with h2 | ⟨h2, h2'⟩
      · exact Or.inl (h1 ▸ h2)
      · refine Or.inr ⟨h1.trans h2, ?_⟩
        unfold strLE at h1' h2' ⊢
        simp only [Bool.not_eq_eq_eq_not, Bool.not_true] at h1' h2' ⊢
        by_cases hra : strLT r.first_name p.first_name = true
        · exfalso
          by_cases hpq' : strLT p.first_name q.first_name = true
          · have hrq : strLT r.first_name q.first_name = true := listLexLT_trans hra hpq'
            rw [h2'] at hrq
            exact Bool.false_ne_true hrq
          · by_cases hqp' : strLT q.first_name p.first_name = true
            · rw [h1'] at hqp'
              exact Bool.false_ne_true hqp'
            · have heq : p.first_name = q.first_name :=
                strLT_connected (bool_eq_false hpq') (bool_eq_false hqp')
              rw [heq] at hra
              rw [h2'] at hra
              exact Bool.false_ne_true hra
        · exact bool_eq_false hra

/-- Embedding of getAllPatients: SELECT star FROM patients ORDER BY
last_name, first_name over a stored table. -/
def getAllPatients (table : List PatientRow) : List PatientRow :=
  List.insertionSort nameLE table

/-- Embedding of searchPatientsByName: SELECT star FROM patients WHERE
first_name ILIKE percent-term-percent OR last_name ILIKE
percent-term-percent ORDER BY last_name, first_name.  The pattern list is
the percent-wrapped search term, exactly as the source builds the bound
parameter. -/
def searchPatientsByName (term : String) (table : List PatientRow) : List PatientRow :=
  List.insertionSort nameLE
    (table.filter fun p =>
      ilikeMatches p.first_name ('%' :: term.data ++ ['%']) ||
      ilikeMatches p.last_name ('%' :: term.data ++ ['%']))

theorem anySuffix_iff (f : List Char → Bool) (s : List Char) :
    anySuffix f s = true ↔ ∃ s₁ s₂, s = s₁ ++ s₂ ∧ f s₂ = true := by
  induction s with
  | nil =>
    simp only [anySuffix]
    constructor
    · intro h
      exact ⟨[], [], rfl, h⟩
    · rintro ⟨s₁, s₂, h, hm⟩
      rcases List.append_eq_nil.mp h.symm with ⟨rfl, rfl⟩
      exact hm
  | cons c s' ih =>
    simp only [anySuffix, Bool.or_eq_true, ih]
    constructor
    · rintro (h | ⟨s₁, s₂, rfl, hm⟩)
      · exact ⟨[], c :: s', rfl, h⟩
      · exact ⟨c :: s₁, s₂, rfl, hm⟩
    · rintro ⟨s₁, s₂, h, hm⟩
      cases s₁ with
      | nil =>
        exact Or.inl (by rw [show c :: s' = s₂ by simpa using h]; exact hm)
      | cons d s₁' =>
        simp only [List.cons_append, List.cons.injEq] at h
        exact Or.inr ⟨s₁', s₂, h.2, hm⟩

/-- A pattern free of wildcards matches exactly itself. -/
theorem likeMatch_plain (t : List Char) (ht : ∀ c ∈ t, c ≠ '%' ∧ c ≠ '_') :
    ∀ s, likeMatch t s = true ↔ t = s := by
  induction t with
  | nil =>
    intro s
    cases s <;> simp [likeMatch]
  | cons p t' ih =>
    intro s
    have hp := ht p (List.mem_cons_self _ _)
    have ht' : ∀ c ∈ t', c ≠ '%' ∧ c ≠ '_' := fun c hc => ht c (List.mem_cons_of_mem _ hc)
    cases s with
    | nil =>
      simp [likeMatch, hp.1]
    | cons c s' =>
      simp only [likeMatch, if_neg hp.1, if_neg hp.2, Bool.and_eq_true, beq_iff_eq,
        List.cons.injEq]
      rw [ih ht' s']

/-- A wildcard-free pattern followed by a single percent matches exactly
the values it prefixes. -/
theorem likeMatch_plain_pct (t : List Char) (ht : ∀ c ∈ t, c ≠ '%' ∧ c ≠ '_') :
    ∀ s, likeMatch (t ++ ['%']) s = true ↔ ∃ s₂, s = t ++ s₂ := by
  induction t with
  | nil =>
    intro s
    simp only [List.nil_append]
    have : likeMatch ['%'] s = anySuffix (likeMatch []) s := by
      simp [likeMatch]
    rw [this, anySuffix_iff]
    constructor
    · intro _
      exact ⟨s, rfl⟩
    · intro _
      exact ⟨s, [], by simp, by simp [likeMatch]⟩
  | cons p t' ih =>
    intro s
    have hp := ht p (List.mem_cons_self _ _)
    have ht' : ∀ c ∈ t', c ≠ '%' ∧ c ≠ '_' := fun c hc => ht c (List.mem_cons_of_mem _ hc)
    cases s with
    | nil =>
      simp [likeMatch, hp.1]
    | cons c s' =>
      simp only [List.cons_append, likeMatch, if_neg hp.1, if_neg hp.2, Bool.and_eq_true,
        beq_iff_eq, List.append_eq]
      rw [ih ht' s']
      constructor
      · rintro ⟨rfl, s₂, rfl⟩
        exact ⟨s₂, rfl⟩
      · rintro ⟨s₂, h⟩
        simp only [List.cons_append, List.cons.injEq] at h
        exact ⟨h.1.symm, s₂, h.2⟩

/-- The both-ends-wildcarded pattern built from a wildcard-free term
matches exactly the values containing the term contiguously. -/
theorem likeMatch_wrap_iff (t : List Char) (ht : ∀ c ∈ t, c ≠ '%' ∧ c ≠ '_') (s : List Char) :
    likeMatch ('%' :: (t ++ ['%'])) s = true ↔ ∃ s₁ s₂, s = s₁ ++ t ++ s₂ := by
  have hpct : likeMatch ('%' :: (t ++ ['%'])) s = anySuffix (likeMatch (t ++ ['%'])) s := by
    simp [likeMatch]
  rw [hpct, anySuffix_iff]
  constructor
  · rintro ⟨s₁, s₂, rfl, hm⟩
    rcases (likeMatch_plain_pct t ht s₂).mp hm with ⟨s₃, rfl⟩
    exact ⟨s₁, s₃, by simp⟩
  · rintro ⟨s₁, s₂, rfl⟩
    exact ⟨s₁, t ++ s₂, by simp, (likeMatch_plain_pct t ht (t ++ s₂)).mpr ⟨s₂, rfl⟩⟩

theorem isSubAt_iff (n h : List Char) : isSubAt n h = true ↔ ∃ r, h = n ++ r := by
  induction n generalizing h with
  | nil => simp [isSubAt]
  | cons a as ih =>
    cases h with
    | nil => simp [isSubAt]
    | cons b bs =>
      simp only [isSubAt, Bool.and_eq_true, beq_iff_eq, ih, List.cons_append, List.cons.injEq]
      constructor
      · rintro ⟨rfl, r, rfl⟩
        exact ⟨r, rfl, rfl⟩
      · rintro ⟨r, rfl, rfl⟩
        exact ⟨rfl, r, rfl⟩

theorem subListOf_iff (n h : List Char) :
    subListOf n h = true ↔ ∃ s₁ s₂, h = s₁ ++ n ++ s₂ := by
  induction h with
  | nil =>
    simp only [subListOf, isSubAt_iff]
    constructor
    · rintro ⟨r, hr⟩
      exact ⟨[], r, by simpa using hr⟩
    · rintro ⟨s₁, s₂, hs⟩
      rcases List.append_eq_nil.mp hs.symm with ⟨h1, rfl⟩
      rcases List.append_eq_nil.mp h1 with ⟨rfl, rfl⟩
      exact ⟨[], rfl⟩
  | cons c hs ih =>
    simp only [subListOf, Bool.or_eq_true, isSubAt_iff, ih]
    constructor
    · rintro (⟨r, hr⟩ | ⟨s₁, s₂, hs'⟩)
      · exact ⟨[], r, by simpa using hr⟩
      · exact ⟨c :: s₁, s₂, by simp [hs']⟩
    · rintro ⟨s₁, s₂, hs'⟩
      cases s₁ with
      | nil =>
        exact Or.inl ⟨s₂, by simpa using hs'⟩
      | cons d s₁' =>
        simp only [List.cons_append, List.cons.injEq] at hs'
        exact Or.inr ⟨s₁', s₂, hs'.2⟩

example : containsCI "doe" "John Doe" = true := by decide
example : containsCI "doe" "Jane Smith" = false := by decide
example : likeMatch ('%' :: "_".data ++ ['%']) "ab".data = true := by decide

theorem char_toNat_ofNat (m : Nat) (h : m.isValidChar) : (Char.ofNat m).toNat = m := by
  simp [Char.ofNat, h, Char.ofNatAux, Char.toNat, UInt32.toNat]

/-- Case folding never produces a LIKE wildcard, so a wildcard-free term
stays wildcard-free after the ILIKE case folding. -/
theorem toLower_ne_wildcard (c : Char) (h1 : c ≠ '%') (h2 : c ≠ '_') :
    Char.toLower c ≠ '%' ∧ Char.toLower c ≠ '_' := by
  have hdef : Char.toLower c =
      if c.toNat ≥ 65 ∧ c.toNat ≤ 90 then Char.ofNat (c.toNat + 32) else c := rfl
  rw [hdef]
  split
  · rename_i hc
    have hv : (c.toNat + 32).isValidChar := Or.inl (by omega)
    constructor
    · intro he
      have := congrArg Char.toNat he
      rw [char_toNat_ofNat _ hv] at this
      have h37 : Char.toNat '%' = 37 := by decide
      omega
    · intro he
      have := congrArg Char.toNat he
      rw [char_toNat_ofNat _ hv] at this
      have h95 : Char.toNat '_' = 95 := by decide
      omega
  · exact ⟨h1, h2⟩

/-- For a wildcard-free term, the ILIKE match against the percent-wrapped
pattern coincides with case-insensitive substring containment. -/
theorem ilike_eq_containsCI (term v : String)
    (h : ∀ c ∈ term.data, c ≠ '%' ∧ c ≠ '_') :
    ilikeMatches v ('%' :: term.data ++ ['%']) = containsCI term v := by
  unfold ilikeMatches containsCI
  have hlow : lowerL ('%' :: term.data ++ ['%']) = '%' :: (lowerL term.data ++ ['%']) := by
    simp [lowerL, List.map_append]
  rw [hlow]
  have hplain : ∀ c ∈ lowerL term.data, c ≠ '%' ∧ c ≠ '_' := by
    intro c hc
    rcases List.mem_map.mp hc with ⟨d, hd, rfl⟩
    exact toLower_ne_wildcard d (h d hd).1 (h d hd).2
  have hbool : ∀ a b : Bool, (a = true ↔ b = true) → a = b := by decide
  apply hbool
  rw [likeMatch_wrap_iff _ hplain, subListOf_iff]

/-- C8: getAllPatients returns every stored row (a permutation of the
table, so nothing is added or dropped) ordered by (last_name, first_name)
ascending, regardless of insertion order, and the empty table yields the
empty sequence rather than an error. -/
theorem claimC8 (table : List PatientRow) :
    List.Perm (getAllPatients table) table
    ∧ List.Sorted nameLE (getAllPatients table)
    ∧ getAllPatients [] = [] := by
  refine ⟨List.perm_insertionSort nameLE table, List.sorted_insertionSort nameLE table, rfl⟩

/-- C7 counterexample: for the search term consisting of the single LIKE
wildcard underscore, the operation (which matches the SQL pattern
percent-underscore-percent) returns a row although neither of its names
contains the term as a substring; so the claim, which requires exactly
the case-insensitive substring matches for every search term, fails. -/
theorem claimC7_counterexample :
    searchPatientsByName "_" [⟨1, "Ab", "Cd"⟩] = [⟨1, "Ab", "Cd"⟩]
    ∧ containsCI "_" "Ab" = false ∧ containsCI "_" "Cd" = false := by
  decide

/-- C7 (amended): for every search term containing no LIKE wildcard or
escape character (percent, underscore, backslash), searchPatientsByName
returns exactly the rows whose first_name or last_name case-insensitively
contains the term as a substring (as a permutation-exact multiset),
excludes all other rows, and orders the result by (last_name, first_name)
ascending. -/
theorem claimC7 (term : String)
    (hplain : ∀ c ∈ term.data, c ≠ '%' ∧ c ≠ '_' ∧ c ≠ '\\')
    (table : List PatientRow) :
    List.Perm (searchPatientsByName term table)
      (table.filter (fun p => containsCI term p.first_name || containsCI term p.last_name))
    ∧ List.Sorted nameLE (searchPatientsByName term table)
    ∧ ∀ p, p ∈ searchPatientsByName term table ↔
        p ∈ table ∧ (containsCI term p.first_name = true ∨ containsCI term p.last_name = true) := by
  have hw : ∀ c ∈ term.data, c ≠ '%' ∧ c ≠ '_' := fun c hc =>
    ⟨(hplain c hc).1, (hplain c hc).2.1⟩
  have hfil :
      table.filter (fun p =>
          ilikeMatches p.first_name ('%' :: term.data ++ ['%']) ||
          ilikeMatches p.last_name ('%' :: term.data ++ ['%'])) =
        table.filter (fun p => containsCI term p.first_name || containsCI term p.last_name) := by
    apply List.filter_congr
    intro p _
    rw [ilike_eq_containsCI term p.first_name hw, ilike_eq_containsCI term p.last_name hw]
  have hperm : List.Perm (searchPatientsByName term table)
      (table.filter (fun p => containsCI term p.first_name || containsCI term p.last_name)) := by
    unfold searchPatientsByName
    rw [hfil]
    exact List.perm_insertionSort nameLE _
  refine ⟨hperm, List.sorted_insertionSort nameLE _, ?_⟩
  intro p
  rw [hperm.mem_iff, List.mem_filter]
  simp [Bool.or_eq_true]

/-- C7 witness: the concrete example from the specification, searching
"doe" among John Doe, Jane Smith and Robert Doel, instantiates the
amended theorem; the result contains exactly John Doe and Robert Doel,
ordered by last name. -/
theorem claimC7_witness :
    (∀ c ∈ "doe".data, c ≠ '%' ∧ c ≠ '_' ∧ c ≠ '\\')
    ∧ (∀ p, p ∈ searchPatientsByName "doe"
          [⟨1, "John", "Doe"⟩, ⟨2, "Jane", "Smith"⟩, ⟨3, "Robert", "Doel"⟩] ↔
        p ∈ ([⟨1, "John", "Doe"⟩, ⟨2, "Jane", "Smith"⟩, ⟨3, "Robert", "Doel"⟩] : List PatientRow)
          ∧ (containsCI "doe" p.first_name = true ∨ containsCI "doe" p.last_name = true))
    ∧ searchPatientsByName "doe"
        [⟨1, "John", "Doe"⟩, ⟨2, "Jane", "Smith"⟩, ⟨3, "Robert", "Doel"⟩]
        = [⟨1, "John", "Doe"⟩, ⟨3, "Robert", "Doel"⟩] :=
  ⟨by decide, (claimC7 "doe" (by decide) _).2.2, by decide⟩

/-- The shape of the data the registration form submits: every field is a
controlled text input, so every field is a string (see the initial form
state in AddPatient, where all eleven fields start as the empty string,
and the PatientFormData-typed service signature). -/
structure PatientFormData where
  first_name : String
  last_name : String
  date_of_birth : String
  gender : String
  email : String
  phone : String
  address : String
  height_cm : String
  weight_kg : String
  allergies : String
  medical_notes : String
deriving DecidableEq

/-- JavaScript or-null coalescing on a string value: the empty string is
falsy, so (value or-else null) binds NULL exactly for the empty string.
Used by registerPatient for the free-text optional fields. -/
def strOrNull (s : String) : SqlValue :=
  if s = "" then SqlValue.null else SqlValue.str s

/-- The eleven bound parameters registerPatient builds for the INSERT, in
statement order.  The free-text optional fields (email, phone, address,
allergies, medical_notes) go through the JavaScript or-operator, which
maps the empty string to null; the numeric fields (height_cm, weight_kg)
go through the nullish-coalescing operator, which maps only null or
undefined to null, and the form always supplies a string there, so the
value is passed through unchanged. -/
def mkParams (p : PatientFormData) : List SqlValue :=
  [ SqlValue.str p.first_name,
    SqlValue.str p.last_name,
    SqlValue.str p.date_of_birth,
    SqlValue.str p.gender,
    strOrNull p.email,
    strOrNull p.phone,
    strOrNull p.address,
    SqlValue.str p.height_cm,
    SqlValue.str p.weight_kg,
    strOrNull p.allergies,
    strOrNull p.medical_notes ]

/-- A row as stored by the INSERT: the auto-assigned serial id plus the
eleven bound column values. -/
structure InsertedRow where
  id : Nat
  vals : List SqlValue
deriving DecidableEq

/-- Embedding of the DbManager-level registerPatient: builds the
parameters, runs the INSERT with RETURNING id against the stored table,
and propagates an engine rejection unchanged (the function has no catch,
so the engine error reaches its caller with the original message).  The
engine outcome is supplied as the engineReject argument: none means the
insert is accepted, some msg means the engine rejects it with that
message. -/
def registerPatient (engineReject : Option String) (table : List InsertedRow)
    (p : PatientFormData) : List InsertedRow × Except String Nat :=
  match engineReject with
  | some e => (table, Except.error e)
  | none =>
    let newId := table.length + 1
    (table ++ [{ id := newId, vals := mkParams p }], Except.ok newId)

/-- The fixed message the service layer substitutes for any database
error. -/
def serviceWrapMsg : String := "Could not register patient. Please try again."

/-- Embedding of the service-level registerPatient wrapper in
patientService.ts: it awaits the DbManager call inside a try-catch and,
on any failure, throws a new Error with the fixed user-facing message,
discarding the original one (which is only logged to the console). -/
def registerPatientService (engineReject : Option String) (table : List InsertedRow)
    (p : PatientFormData) : List InsertedRow × Except String Unit :=
  match registerPatient engineReject table p with
  | (t, Except.ok _) => (t, Except.ok ())
  | (t, Except.error _) => (t, Except.error serviceWrapMsg)

/-- The uniform envelope returned by executeQuery. -/
structure QueryResult (α : Type) where
  success : Bool
  data : List α
  error : Option String
deriving DecidableEq

/-- Embedding of executeQuery: the whole body (including obtaining the
connection) runs inside a try-catch, so the outcome of the engine (or of
the connection attempt) is a value, never an exception.  The engine
outcome carries the rows on success (possibly absent, which the source
maps to the empty list via the or-operator) and the thrown message on
failure (an empty message is replaced by the fixed fallback text, again
via the or-operator). -/
def executeQuery {α : Type} (outcome : Except String (Option (List α))) : QueryResult α :=
  match outcome with
  | Except.ok rows => { success := true, data := rows.getD [], error := none }
  | Except.error msg =>
    { success := false, data := [],
      error := some (if msg = "" then "An error occurred while executing the query" else msg) }

/-- C6: executeQuery never raises outward; for every engine outcome it
returns the uniform envelope: on success, success is true, data holds the
result rows (empty when the engine reports none) and error is null; on
any failure, success is false, data is empty and error is a non-null
message. -/
theorem claimC6 {α : Type} (outcome : Except String (Option (List α))) :
    (∀ rows, outcome = Except.ok rows →
      executeQuery outcome = { success := true, data := rows.getD [], error := none })
    ∧ (∀ msg, outcome = Except.error msg →
      (executeQuery outcome).success = false
      ∧ (executeQuery outcome).data = []
      ∧ (executeQuery outcome).error.isSome = true) := by
  constructor
  · rintro rows rfl
    rfl
  · rintro msg rfl
    refine ⟨rfl, rfl, ?_⟩
    simp [executeQuery]

/-- C6 witness: a failing statement (the engine throws with the message
syntax error) yields the failure envelope with a non-null error, and a
successful one yields its rows with a null error. -/
theorem claimC6_witness :
    (executeQuery (α := Nat) (Except.error "syntax error")).success = false
    ∧ (executeQuery (α := Nat) (Except.error "syntax error")).data = []
    ∧ (executeQuery (α := Nat) (Except.error "syntax error")).error.isSome = true
    ∧ executeQuery (Except.ok (some [5]))
        = { success := true, data := [5], error := none } :=
  ⟨(claimC6 (Except.error "syntax error")).2 "syntax error" rfl |>.1,
   (claimC6 (Except.error "syntax error")).2 "syntax error" rfl |>.2.1,
   (claimC6 (Except.error "syntax error")).2 "syntax error" rfl |>.2.2,
   (claimC6 (Except.ok (some [5]))).1 (some [5]) rfl⟩

/-- C1 counterexample: when the engine rejects the insert with a concrete
constraint-violation message, the registration operation exposed to the
pages (the patientService wrapper) fails with the fixed message, not with
the engine message, so the engine message is not surfaced to the
caller. -/
theorem claimC1_counterexample :
    (registerPatientService (some "duplicate key value violates unique constraint") []
        ⟨"John", "Doe", "2000-01-01", "male", "", "", "", "", "", "", ""⟩).2
      = Except.error serviceWrapMsg
    ∧ serviceWrapMsg ≠ "duplicate key value violates unique constraint" := by
  exact ⟨rfl, by decide⟩

/-- C1 (amended): when the engine rejects the insert, the DbManager-level
registerPatient propagates the failure with the engine message unchanged,
but the service-level registerPatient that the pages call catches it and
re-throws the fixed message Could not register patient. Please try
again., discarding the engine message. -/
theorem claimC1 (msg : String) (table : List InsertedRow) (p : PatientFormData) :
    (registerPatient (some msg) table p).2 = Except.error msg
    ∧ (registerPatientService (some msg) table p).2 = Except.error serviceWrapMsg
    ∧ (registerPatient (some msg) table p).1 = table := by
  exact ⟨rfl, rfl, rfl⟩

/-- C2 counterexample: registering a patient whose numeric optional
fields hold the empty string stores the empty string, not NULL, in the
height_cm and weight_kg parameter slots, because the source uses nullish
coalescing (not the or-operator) for those two fields. -/
theorem claimC2_counterexample :
    (mkParams ⟨"John", "Doe", "2000-01-01", "male", "", "", "", "", "", "", ""⟩).getD 7
        SqlValue.null = SqlValue.str ""
    ∧ (mkParams ⟨"John", "Doe", "2000-01-01", "male", "", "", "", "", "", "", ""⟩).getD 8
        SqlValue.null = SqlValue.str ""
    ∧ SqlValue.str "" ≠ SqlValue.null := by
  exact ⟨rfl, rfl, by decide⟩

/-- C2 (amended): registerPatient inserts exactly one new row holding the
eleven bound parameters and returns the newly assigned id; an
empty-string value is normalized to NULL for the free-text optional
fields (email, phone, address, allergies, medical_notes), while the
numeric optional fields (height_cm, weight_kg) are passed through
unchanged, so an empty string there is bound as the empty string, not as
NULL. -/
theorem claimC2 (table : List InsertedRow) (p : PatientFormData) :
    (registerPatient none table p).1
      = table ++ [{ id := table.length + 1, vals := mkParams p }]
    ∧ (registerPatient none table p).2 = Except.ok (table.length + 1)
    ∧ ((mkParams p).getD 4 SqlValue.null = SqlValue.null ↔ p.email = "")
    ∧ ((mkParams p).getD 5 SqlValue.null = SqlValue.null ↔ p.phone = "")
    ∧ ((mkParams p).getD 6 SqlValue.null = SqlValue.null ↔ p.address = "")
    ∧ ((mkParams p).getD 9 SqlValue.null = SqlValue.null ↔ p.allergies = "")
    ∧ ((mkParams p).getD 10 SqlValue.null = SqlValue.null ↔ p.medical_notes = "")
    ∧ (mkParams p).getD 7 SqlValue.null = SqlValue.str p.height_cm
    ∧ (mkParams p).getD 8 SqlValue.null = SqlValue.str p.weight_kg
    ∧ (mkParams p).getD 0 SqlValue.null = SqlValue.str p.first_name
    ∧ (mkParams p).getD 1 SqlValue.null = SqlValue.str p.last_name
    ∧ (mkParams p).getD 2 SqlValue.null = SqlValue.str p.date_of_birth
    ∧ (mkParams p).getD 3 SqlValue.null = SqlValue.str p.gender := by
  have hnorm : ∀ s : String, (strOrNull s = SqlValue.null ↔ s = "") := by
    intro s
    unfold strOrNull
    split_ifs with h
    · simp [h]
    · simp [h]
  refine ⟨rfl, rfl, ?_, ?_, ?_, ?_, ?_, rfl, rfl, rfl, rfl, rfl, rfl⟩ <;>
    simpa [mkParams, List.getD] using hnorm _

/-- The observable schema state of the patients table: whether the table
exists, which columns it has (in creation order), and whether the name
index exists. -/
structure Schema where
  tableExists : Bool
  columns : List String
  indexExists : Bool
deriving DecidableEq

/-- Which of the statements issued by initSchema the engine rejects: the
CREATE TABLE, the per-column catalog check, the per-column ALTER, or the
CREATE INDEX.  The all-false assignment models a healthy engine. -/
structure EngineFaults where
  failCreate : Bool
  failCheck : String → Bool
  failAlter : String → Bool
  failIndex : Bool

/-- Outcome of one initSchema run: the resulting schema, the error that
aborted the run (if any), and the columns whose check-or-add step
actually executed, in order. -/
structure InitResult where
  schema : Schema
  err : Option String
  ran : List String
deriving DecidableEq

/-- The column set of the CREATE TABLE IF NOT EXISTS statement. -/
def baseColumns : List String :=
  ["id", "first_name", "last_name", "date_of_birth", "gender", "email", "phone",
   "address", "height_cm", "weight_kg", "allergies", "medical_notes", "created_at"]

/-- The columns the migration section checks and adds, in source order. -/
def migratedColumns : List String :=
  ["height_cm", "weight_kg", "allergies", "medical_notes"]

/-- CREATE TABLE IF NOT EXISTS patients: a no-op when the table exists,
otherwise creates it with the full current column set. -/
def createTableIfNotExists (s : Schema) : Schema :=
  if s.tableExists then s
  else { tableExists := true, columns := baseColumns, indexExists := s.indexExists }

/-- One migration step for one column, exactly as the source issues it:
first the pg_attribute existence check (its own query), then, only when
the column is absent, the ALTER TABLE ADD COLUMN (its own query).  Either
query can be rejected by the engine, which in the source throws out of
initSchema. -/
def columnStep (f : EngineFaults) (c : String) (s : Schema) : Schema × Option String :=
  if f.failCheck c then (s, some ("column check failed: " ++ c))
  else if c ∈ s.columns then (s, none)
  else if f.failAlter c then (s, some ("alter table failed: " ++ c))
  else ({ s with columns := s.columns ++ [c] }, none)

/-- Runs the migration steps in order.  The steps are sequential awaits
with no per-column catch, so the first rejected query aborts the
remainder; steps already completed keep their (auto-committed) effect. -/
def runColumns (f : EngineFaults) : List String → Schema → InitResult
  | [], s => ⟨s, none, []⟩
  | c :: rest, s =>
    match columnStep f c s with
    | (s', none) =>
      let r := runColumns f rest s'
      ⟨r.schema, r.err, c :: r.ran⟩
    | (s', some e) => ⟨s', some e, [c]⟩

/-- The tail of initSchema after the migration steps: if a column step
aborted, its error propagates (the index statement does not run);
otherwise CREATE INDEX IF NOT EXISTS executes. -/
def finishInit (f : EngineFaults) (r : InitResult) : InitResult :=
  if r.err.isSome then r
  else if f.failIndex then ⟨r.schema, some "create index failed", r.ran⟩
  else ⟨{ r.schema with indexExists := true }, none, r.ran⟩

/-- Embedding of initSchema: CREATE TABLE IF NOT EXISTS, then the four
per-column migration steps in source order, then CREATE INDEX IF NOT
EXISTS.  An engine rejection anywhere aborts the rest of the run (the
source has no catch inside initSchema). -/
def initSchemaRun (f : EngineFaults) (s : Schema) : InitResult :=
  if f.failCreate then ⟨s, some "create table failed", []⟩
  else finishInit f (runColumns f migratedColumns (createTableIfNotExists s))

/-- A healthy engine: no statement is rejected. -/
def noFaults : EngineFaults :=
  { failCreate := false, failCheck := fun _ => false, failAlter := fun _ => false,
    failIndex := false }

/-- initSchema against a healthy engine. -/
def initSchema (s : Schema) : InitResult := initSchemaRun noFaults s

theorem runColumns_ok (cs : List String) (s : Schema) :
    (runColumns noFaults cs s).err = none
    ∧ (runColumns noFaults cs s).ran = cs
    ∧ (runColumns noFaults cs s).schema.tableExists = s.tableExists
    ∧ (runColumns noFaults cs s).schema.indexExists = s.indexExists
    ∧ (∀ c, c ∈ s.columns → c ∈ (runColumns noFaults cs s).schema.columns)
    ∧ (∀ c ∈ cs, c ∈ (runColumns noFaults cs s).schema.columns)
    ∧ (s.columns.Nodup → (runColumns noFaults cs s).schema.columns.Nodup) := by
  induction cs generalizing s with
  | nil =>
    refine ⟨rfl, rfl, rfl, rfl, fun c hc => hc, fun c hc => absurd hc (List.not_mem_nil c), id⟩
  | cons c rest ih =>
    by_cases hmem : c ∈ s.columns
    · have hstep : columnStep noFaults c s = (s, none) := by
        simp [columnStep, noFaults, hmem]
      simp only [runColumns, hstep]
      rcases ih s with ⟨h1, h2, h3, h4, h5, h6, h7⟩
      refine ⟨h1, by rw [h2], h3, h4, h5, ?_, h7⟩
      intro d hd
      rcases List.mem_cons.mp hd with rfl | hd
      · exact h5 d hmem
      · exact h6 d hd
    · have hstep : columnStep noFaults c s = ({ s with columns := s.columns ++ [c] }, none) := by
        simp [columnStep, noFaults, hmem]
      simp only [runColumns, hstep]
      rcases ih { s with columns := s.columns ++ [c] } with ⟨h1, h2, h3, h4, h5, h6, h7⟩
      refine ⟨h1, by rw [h2], h3, h4, ?_, ?_, ?_⟩
      · intro d hd
        exact h5 d (List.mem_append.mpr (Or.inl hd))
      · intro d hd
        rcases List.mem_cons.mp hd with rfl | hd
        · exact h5 d (List.mem_append.mpr (Or.inr (List.mem_singleton.mpr rfl)))
        · exact h6 d hd
      · intro hnd
        apply h7
        simp only [List.nodup_append, List.nodup_singleton, List.disjoint_singleton]
        exact ⟨hnd, by trivial, hmem⟩
  
theorem runColumns_noop (cs : List String) (s : Schema) (h : ∀ c ∈ cs, c ∈ s.columns) :
    runColumns noFaults cs s = ⟨s, none, cs⟩ := by
  induction cs with
  | nil => rfl
  | cons c rest ih =>
    have hmem : c ∈ s.columns := h c (List.mem_cons_self _ _)
    have hstep : columnStep noFaults c s = (s, none) := by
      simp [columnStep, noFaults, hmem]
    simp only [runColumns, hstep]
    rw [ih (fun d hd => h d (List.mem_cons_of_mem _ hd))]

theorem runColumns_cons_ok {f : EngineFaults} {c : String} {s s' : Schema}
    (h : columnStep f c s = (s', none)) (rest : List String) :
    runColumns f (c :: rest) s =
      ⟨(runColumns f rest s').schema, (runColumns f rest s').err,
        c :: (runColumns f rest s').ran⟩ := by
  simp only [runColumns, h]

theorem runColumns_cons_err {f : EngineFaults} {c : String} {s s' : Schema} {e : String}
    (h : columnStep f c s = (s', some e)) (rest : List String) :
    runColumns f (c :: rest) s = ⟨s', some e, [c]⟩ := by
  simp only [runColumns, h]

theorem createTable_tableExists (t : Schema) : (createTableIfNotExists t).tableExists = true := by
  unfold createTableIfNotExists
  split_ifs with h
  · exact h
  · rfl

theorem createTable_nodup (t : Schema) (ht : t.columns.Nodup) :
    (createTableIfNotExists t).columns.Nodup := by
  unfold createTableIfNotExists
  split_ifs
  · exact ht
  · show baseColumns.Nodup
    decide

theorem indexUpdate_self (t : Schema) (ht : t.indexExists = true) :
    { t with indexExists := true } = t := by
  cases t
  simp_all

/-- A second initSchema run over a schema that already has the table, the
index and all migrated columns changes nothing and raises no error. -/
theorem initSchema_noop (t : Schema) (hte : t.tableExists = true) (hie : t.indexExists = true)
    (hcols : ∀ c ∈ migratedColumns, c ∈ t.columns) :
    initSchema t = ⟨t, none, migratedColumns⟩ := by
  unfold initSchema initSchemaRun
  rw [if_neg (by decide : ¬ (noFaults.failCreate = true))]
  have hcreate : createTableIfNotExists t = t := by
    unfold createTableIfNotExists
    rw [if_pos hte]
  rw [hcreate, runColumns_noop migratedColumns t hcols]
  unfold finishInit
  simp only [Option.isSome_none, Bool.false_eq_true, if_false]
  rw [if_neg (by decide : ¬ (noFaults.failIndex = true))]
  rw [indexUpdate_self t hie]

/-- C5: initSchema is idempotent: against a healthy engine a run never
errors, a second run returns the very same schema with no error (every
column check finds its column, the table and index creations become
no-ops), and no duplicate columns are created. -/
theorem claimC5 (s : Schema) :
    (initSchema s).err = none
    ∧ initSchema (initSchema s).schema = ⟨(initSchema s).schema, none, migratedColumns⟩
    ∧ (s.columns.Nodup → (initSchema s).schema.columns.Nodup) := by
  obtain ⟨h1, h2, h3, h4, h5, h6, h7⟩ := runColumns_ok migratedColumns (createTableIfNotExists s)
  have hviz : initSchema s =
      ⟨{ (runColumns noFaults migratedColumns (createTableIfNotExists s)).schema with
          indexExists := true }, none,
        (runColumns noFaults migratedColumns (createTableIfNotExists s)).ran⟩ := by
    unfold initSchema initSchemaRun
    rw [if_neg (by decide : ¬ (noFaults.failCreate = true))]
    unfold finishInit
    rw [h1]
    simp only [Option.isSome_none, Bool.false_eq_true, if_false]
    rw [if_neg (by decide : ¬ (noFaults.failIndex = true))]
  have hsch : (initSchema s).schema =
      { (runColumns noFaults migratedColumns (createTableIfNotExists s)).schema with
          indexExists := true } := by
    rw [hviz]
  refine ⟨by rw [hviz], ?_, ?_⟩
  · have hte : (initSchema s).schema.tableExists = true := by
      rw [hsch]
      show (runColumns noFaults migratedColumns (createTableIfNotExists s)).schema.tableExists
        = true
      rw [h3]
      exact createTable_tableExists s
    have hie : (initSchema s).schema.indexExists = true := by
      rw [hsch]
    have hcols : ∀ c ∈ migratedColumns, c ∈ (initSchema s).schema.columns := by
      intro c hc
      rw [hsch]
      exact h6 c hc
    exact initSchema_noop (initSchema s).schema hte hie hcols
  · intro hnd
    rw [hsch]
    show (runColumns noFaults migratedColumns (createTableIfNotExists s)).schema.columns.Nodup
    exact h7 (createTable_nodup s hnd)

/-- C5 witness: the idempotence theorem instantiated at the fresh schema
state (no table, no columns, no index), whose column list is trivially
duplicate-free. -/
theorem claimC5_witness :
    (initSchema ⟨false, [], false⟩).err = none
    ∧ initSchema (initSchema ⟨false, [], false⟩).schema
        = ⟨(initSchema ⟨false, [], false⟩).schema, none, migratedColumns⟩
    ∧ (initSchema ⟨false, [], false⟩).schema.columns.Nodup :=
  ⟨(claimC5 ⟨false, [], false⟩).1, (claimC5 ⟨false, [], false⟩).2.1,
   (claimC5 ⟨false, [], false⟩).2.2 (by decide)⟩

/-- C4 counterexample: with the engine rejecting the weight_kg catalog
check, initSchema aborts: the allergies and medical_notes steps never
run, contradicting the claim that a failure on one column does not
prevent the later columns from being checked and added. -/
theorem claimC4_counterexample :
    (initSchemaRun ⟨false, fun c => c == "weight_kg", fun _ => false, false⟩
        ⟨false, [], false⟩).err.isSome = true
    ∧ (initSchemaRun ⟨false, fun c => c == "weight_kg", fun _ => false, false⟩
        ⟨false, [], false⟩).ran = ["height_cm", "weight_kg"]
    ∧ "allergies" ∉ (initSchemaRun ⟨false, fun c => c == "weight_kg", fun _ => false, false⟩
        ⟨false, [], false⟩).ran
    ∧ "medical_notes" ∉ (initSchemaRun ⟨false, fun c => c == "weight_kg", fun _ => false, false⟩
        ⟨false, [], false⟩).ran := by
  refine ⟨rfl, rfl, ?_, ?_⟩ <;> decide

/-- C4 (amended): each column step is an independent pair of statements,
so work done before a failure persists: when the engine rejects the
weight_kg check (while height_cm succeeded), the resulting schema is
exactly the one produced by the table creation and the height_cm step,
and the error aborts the run, so the later columns (allergies,
medical_notes) are not checked or added. -/
theorem claimC4 (f : EngineFaults) (s : Schema)
    (hc : f.failCreate = false)
    (h1 : f.failCheck "height_cm" = false)
    (h2 : f.failAlter "height_cm" = false)
    (h3 : f.failCheck "weight_kg" = true) :
    (initSchemaRun f s).err.isSome = true
    ∧ (initSchemaRun f s).ran = ["height_cm", "weight_kg"]
    ∧ "allergies" ∉ (initSchemaRun f s).ran
    ∧ "medical_notes" ∉ (initSchemaRun f s).ran
    ∧ (initSchemaRun f s).schema = (columnStep f "height_cm" (createTableIfNotExists s)).1 := by
  have hstep1 : columnStep f "height_cm" (createTableIfNotExists s)
      = ((columnStep f "height_cm" (createTableIfNotExists s)).1, none) := by
    by_cases hmem : "height_cm" ∈ (createTableIfNotExists s).columns
    · simp [columnStep, h1, hmem]
    · simp [columnStep, h1, hmem, h2]
  have hstep2 : columnStep f "weight_kg" (columnStep f "height_cm" (createTableIfNotExists s)).1
      = ((columnStep f "height_cm" (createTableIfNotExists s)).1,
          some ("column check failed: " ++ "weight_kg")) := by
    simp [columnStep, h3]
  have hrun : runColumns f migratedColumns (createTableIfNotExists s)
      = ⟨(columnStep f "height_cm" (createTableIfNotExists s)).1,
          some ("column check failed: " ++ "weight_kg"), ["height_cm", "weight_kg"]⟩ := by
    show runColumns f ("height_cm" :: "weight_kg" :: "allergies" :: "medical_notes" :: []) _ = _
    rw [runColumns_cons_ok hstep1, runColumns_cons_err hstep2]
  have hviz : initSchemaRun f s
      = ⟨(columnStep f "height_cm" (createTableIfNotExists s)).1,
          some ("column check failed: " ++ "weight_kg"), ["height_cm", "weight_kg"]⟩ := by
    unfold initSchemaRun
    rw [if_neg (by rw [hc]; exact Bool.false_ne_true), hrun]
    rfl
  rw [hviz]
  refine ⟨rfl, rfl, ?_, ?_, rfl⟩
  · show "allergies" ∉ ["height_cm", "weight_kg"]
    decide
  · show "medical_notes" ∉ ["height_cm", "weight_kg"]
    decide

/-- C4 witness: the amended theorem instantiated with the concrete fault
assignment rejecting exactly the weight_kg check, on the fresh schema. -/
theorem claimC4_witness :
    (initSchemaRun ⟨false, fun c => c == "weight_kg", fun _ => false, false⟩
        ⟨false, [], false⟩).ran = ["height_cm", "weight_kg"]
    ∧ (initSchemaRun ⟨false, fun c => c == "weight_kg", fun _ => false, false⟩
        ⟨false, [], false⟩).schema
      = (columnStep ⟨false, fun c => c == "weight_kg", fun _ => false, false⟩ "height_cm"
          (createTableIfNotExists ⟨false, [], false⟩)).1 :=
  ⟨(claimC4 ⟨false, fun c => c == "weight_kg", fun _ => false, false⟩ ⟨false, [], false⟩
      rfl rfl rfl rfl).2.1,
   (claimC4 ⟨false, fun c => c == "weight_kg", fun _ => false, false⟩ ⟨false, [], false⟩
      rfl rfl rfl rfl).2.2.2.2⟩

/-- The connection object held by the module-level singleton variable.
Its flag records whether initSchema ran to completion against it. -/
structure Conn where
  schemaDone : Bool
deriving DecidableEq

/-- Embedding of initDatabase (the Connection Singleton).  The module
variable db starts as null (none).  When it is null, the source first
constructs the worker and the PGliteWorker (either constructor may
throw: workerFails), then assigns the result to db, and only then awaits
initSchema (which may throw: schemaFails).  The catch block logs and
rethrows but does not reset db, so a schema failure leaves the assigned
connection cached.  When db is already set, it is returned at once;
initSchema is not run again.  Returns the new singleton state together
with the outcome the caller sees. -/
def initDatabase (workerFails schemaFails : Bool) (db : Option Conn) :
    Option Conn × Except String Conn :=
  match db with
  | some c => (some c, Except.ok c)
  | none =>
    if workerFails then (none, Except.error "worker construction failed")
    else
      if schemaFails then (some { schemaDone := false }, Except.error "schema init failed")
      else (some { schemaDone := true }, Except.ok { schemaDone := true })

/-- C3 counterexample: when worker construction succeeds but schema
initialization throws on the first call, the singleton state is not left
empty: the half-initialized connection is cached, and a second call (even
against a now-healthy engine) returns it at once, with its schema setup
never completed and never retried. -/
theorem claimC3_counterexample :
    (initDatabase false true none).1 = some { schemaDone := false }
    ∧ (initDatabase false true none).1 ≠ none
    ∧ initDatabase false false (initDatabase false true none).1
        = (some { schemaDone := false }, Except.ok { schemaDone := false }) := by
  refine ⟨rfl, ?_, rfl⟩
  decide

/-- C3 (amended): the retry behavior depends on which step fails.  If
worker construction throws, the state stays empty and a later call
retries construction and schema initialization.  But if schema
initialization throws after the connection object was assigned, the
connection is cached with its schema setup incomplete, and every
subsequent call returns it immediately without retrying; a cached
connection is always returned unchanged. -/
theorem claimC3 (workerFails schemaFails : Bool) :
    (workerFails = true →
      initDatabase workerFails schemaFails none
        = (none, Except.error "worker construction failed"))
    ∧ (workerFails = false → schemaFails = true →
      (initDatabase workerFails schemaFails none).1 = some { schemaDone := false }
      ∧ ∀ wf2 sf2, initDatabase wf2 sf2 (some { schemaDone := false })
          = (some { schemaDone := false }, Except.ok { schemaDone := false }))
    ∧ (workerFails = false → schemaFails = false →
      initDatabase workerFails schemaFails none
        = (some { schemaDone := true }, Except.ok { schemaDone := true }))
    ∧ (∀ c, initDatabase workerFails schemaFails (some c) = (some c, Except.ok c)) := by
  refine ⟨?_, ?_, ?_, fun c => rfl⟩
  · rintro rfl
    rfl
  · rintro rfl rfl
    exact ⟨rfl, fun wf2 sf2 => rfl⟩
  · rintro rfl rfl
    rfl

/-- C3 witness: the amended theorem instantiated at the failing-schema
first call, showing the cached half-initialized connection is returned by
the next call. -/
theorem claimC3_witness :
    (initDatabase false true none).1 = some { schemaDone := false }
    ∧ initDatabase false false (some { schemaDone := false })
        = (some { schemaDone := false }, Except.ok { schemaDone := false }) :=
  ⟨((claimC3 false true).2.1 rfl rfl).1, ((claimC3 false true).2.1 rfl rfl).2 false false⟩

/-- The state held by the useForm hook: the field values, the per-field
errors, the submit-in-flight flag and the success flag.  The value type
is generic, as in the source. -/
structure FormState (T : Type) where
  formData : T
  errors : List (String × String)
  isSubmitting : Bool
  submitSuccess : Bool

/-- The one effect handleSubmit schedules: the setTimeout callback that
clears the success flag. -/
inductive ScheduledEffect
  | clearSuccess
deriving DecidableEq

/-- Applies a scheduled effect to the form state when its timer fires. -/
def applyEffect {T : Type} : ScheduledEffect → FormState T → FormState T
  | ScheduledEffect.clearSuccess, s => { s with submitSuccess := false }

/-- Embedding of handleSubmit from the useForm hook.  validateForm always
stores the validator output as the new error map; if it is non-empty the
submission aborts there.  Otherwise the submitting flag is set, the
success flag is reset, and the callback runs on the current values: on
success the values are reset to the initial state, the success flag is
set, and a 3000 millisecond timer is scheduled to clear it; on failure
the error is only logged.  The finally block clears the submitting flag
in both cases.  Returns the final state and the scheduled effects. -/
def handleSubmit {T : Type} (validator : T → List (String × String))
    (onSubmitCallback : T → Except String Unit) (initialState : T) (s : FormState T) :
    FormState T × List (Nat × ScheduledEffect) :=
  let newErrors := validator s.formData
  if newErrors.isEmpty then
    let s1 : FormState T :=
      { s with errors := newErrors, isSubmitting := true, submitSuccess := false }
    match onSubmitCallback s1.formData with
    | Except.ok _ =>
      ({ s1 with submitSuccess := true, formData := initialState, isSubmitting := false },
        [(3000, ScheduledEffect.clearSuccess)])
    | Except.error _ => ({ s1 with isSubmitting := false }, [])
  else ({ s with errors := newErrors }, [])

/-- C9: for every form state that passes the validator, a submit whose
callback succeeds resets the values to the initial defaults, sets the
success flag, clears the submitting flag, and schedules exactly one
3-second timer whose effect clears the success flag without further
caller action; when the callback fails, the submitting flag is cleared
as well. -/
theorem claimC9 {T : Type} (validator : T → List (String × String))
    (onSubmitCallback : T → Except String Unit) (initialState : T) (s : FormState T)
    (hvalid : validator s.formData = []) :
    (onSubmitCallback s.formData = Except.ok () →
      (handleSubmit validator onSubmitCallback initialState s).1.formData = initialState
      ∧ (handleSubmit validator onSubmitCallback initialState s).1.submitSuccess = true
      ∧ (handleSubmit validator onSubmitCallback initialState s).1.isSubmitting = false
      ∧ (handleSubmit validator onSubmitCallback initialState s).2
          = [(3000, ScheduledEffect.clearSuccess)]
      ∧ (applyEffect ScheduledEffect.clearSuccess
          (handleSubmit validator onSubmitCallback initialState s).1).submitSuccess = false)
    ∧ (∀ e, onSubmitCallback s.formData = Except.error e →
      (handleSubmit validator onSubmitCallback initialState s).1.isSubmitting = false
      ∧ (handleSubmit validator onSubmitCallback initialState s).1.formData = s.formData
      ∧ (handleSubmit validator onSubmitCallback initialState s).2 = []) := by
  constructor
  · intro hok
    simp [handleSubmit, hvalid, hok, applyEffect]
  · intro e herr
    simp [handleSubmit, hvalid, herr]

/-- C9 witness: the contract instantiated with a trivial validator and a
succeeding callback on a concrete state. -/
theorem claimC9_witness :
    (handleSubmit (fun _ => []) (fun _ => Except.ok ()) 0
        ⟨7, [("x", "old error")], false, false⟩).1.formData = 0
    ∧ (handleSubmit (fun _ => []) (fun _ => Except.ok ()) 0
        ⟨7, [("x", "old error")], false, false⟩).1.submitSuccess = true
    ∧ (handleSubmit (fun _ => []) (fun _ => Except.ok ()) 0
        ⟨7, [("x", "old error")], false, false⟩).1.isSubmitting = false
    ∧ (handleSubmit (fun _ => []) (fun _ => Except.ok ()) 0
        ⟨7, [("x", "old error")], false, false⟩).2
        = [(3000, ScheduledEffect.clearSuccess)]
    ∧ (applyEffect ScheduledEffect.clearSuccess
        (handleSubmit (fun _ => []) (fun _ => Except.ok ()) 0
          ⟨7, [("x", "old error")], false, false⟩).1).submitSuccess = false := by
  have h := (claimC9 (T := Nat) (fun _ => []) (fun _ => Except.ok ()) 0
      ⟨7, [("x", "old error")], false, false⟩ rfl).1 rfl
  exact h

/-- The character class of the email pattern: anything but whitespace and
the at-sign. -/
def emailCharOk (c : Char) : Bool := !c.isWhitespace && !(c == '@')

/-- Matches one-or-more characters of the email character class followed
by whatever the continuation accepts, trying every split (the acceptance
semantics of a regex plus-quantifier). -/
def matchPlusThen (k : List Char → Bool) : List Char → Bool
  | [] => false
  | c :: rest => emailCharOk c && (k rest || matchPlusThen k rest)

/-- Acceptance of the anchored email pattern used by the validator:
one-or-more non-space non-at characters, an at-sign, one-or-more
non-space non-at characters, a literal dot, one-or-more non-space non-at
characters, end of string. -/
def emailRegexAccepts (s : String) : Bool :=
  matchPlusThen (fun r1 =>
    match r1 with
    | '@' :: r2 =>
      matchPlusThen (fun r3 =>
        match r3 with
        | '.' :: r4 => matchPlusThen (fun r5 => r5.isEmpty) r4
        | _ => false) r2
    | _ => false) s.data

/-- Drops leading whitespace characters. -/
def dropWhileWS : List Char → List Char
  | [] => []
  | c :: cs => if c.isWhitespace then dropWhileWS cs else c :: cs

/-- The trim applied by the validator before the required-field checks:
removes leading and trailing whitespace. -/
def strTrim (s : String) : String :=
  String.mk (List.reverse (dropWhileWS (List.reverse (dropWhileWS s.data))))

/-- Embedding of validatePatientForm: a required-field error for
first_name, last_name and date_of_birth when the trimmed value is empty,
a gender error when gender is the empty string, and an email error when
email is non-empty and fails the pattern.  The error map is represented
as the list of field-message pairs in source order. -/
def validatePatientForm (fd : PatientFormData) : List (String × String) :=
  (if strTrim fd.first_name = "" then [("first_name", "First name is required.")] else [])
  ++ (if strTrim fd.last_name = "" then [("last_name", "Last name is required.")] else [])
  ++ (if strTrim fd.date_of_birth = ""
      then [("date_of_birth", "Date of birth is required.")] else [])
  ++ (if fd.gender = "" then [("gender", "Gender is required.")] else [])
  ++ (if fd.email ≠ "" ∧ emailRegexAccepts fd.email = false
      then [("email", "Invalid email format.")] else [])

/-- C10: the validator reports a required-field error on first_name,
last_name and date_of_birth exactly when the trimmed value is empty (so
also for whitespace-only input), a gender error exactly when gender is
empty, an email error exactly when email is non-empty and fails the
pattern, and never reports an error on any other field. -/
theorem claimC10 (fd : PatientFormData) :
    (("first_name" ∈ (validatePatientForm fd).map Prod.fst) ↔ strTrim fd.first_name = "")
    ∧ (("last_name" ∈ (validatePatientForm fd).map Prod.fst) ↔ strTrim fd.last_name = "")
    ∧ (("date_of_birth" ∈ (validatePatientForm fd).map Prod.fst) ↔ strTrim fd.date_of_birth = "")
    ∧ (("gender" ∈ (validatePatientForm fd).map Prod.fst) ↔ fd.gender = "")
    ∧ (("email" ∈ (validatePatientForm fd).map Prod.fst) ↔
        (fd.email ≠ "" ∧ emailRegexAccepts fd.email = false))
    ∧ (∀ kv ∈ validatePatientForm fd,
        kv.1 = "first_name" ∨ kv.1 = "last_name" ∨ kv.1 = "date_of_birth"
        ∨ kv.1 = "gender" ∨ kv.1 = "email") := by
  unfold validatePatientForm
  split_ifs <;> simp_all

/-- C1 witness: the amended propagation theorem at a concrete engine
message and patient. -/
theorem claimC1_witness :
    (registerPatient (some "not-null constraint violated") []
        ⟨"Jane", "Doe", "1990-05-05", "female", "", "", "", "", "", "", ""⟩).2
      = Except.error "not-null constraint violated"
    ∧ (registerPatientService (some "not-null constraint violated") []
        ⟨"Jane", "Doe", "1990-05-05", "female", "", "", "", "", "", "", ""⟩).2
      = Except.error serviceWrapMsg :=
  ⟨(claimC1 "not-null constraint violated" []
      ⟨"Jane", "Doe", "1990-05-05", "female", "", "", "", "", "", "", ""⟩).1,
   (claimC1 "not-null constraint violated" []
      ⟨"Jane", "Doe", "1990-05-05", "female", "", "", "", "", "", "", ""⟩).2.1⟩

/-- C2 witness: the amended insertion theorem at a concrete patient whose
email is empty (bound as NULL), whose phone is present (bound as its
text), and whose height is the empty string (bound as the empty string,
not NULL). -/
theorem claimC2_witness :
    (mkParams ⟨"Jo", "Um", "2001-02-03", "other", "", "555-1234", "", "", "", "", ""⟩).getD 4
        SqlValue.null = SqlValue.null
    ∧ (mkParams ⟨"Jo", "Um", "2001-02-03", "other", "", "555-1234", "", "", "", "", ""⟩).getD 7
        SqlValue.null = SqlValue.str ""
    ∧ (registerPatient none [] ⟨"Jo", "Um", "2001-02-03", "other", "", "555-1234", "", "", "",
        "", ""⟩).2 = Except.ok 1 :=
  ⟨(claimC2 [] ⟨"Jo", "Um", "2001-02-03", "other", "", "555-1234", "", "", "", "", ""⟩).2.2.1.mpr
      rfl,
   (claimC2 [] ⟨"Jo", "Um", "2001-02-03", "other", "", "555-1234", "", "", "", "", ""⟩
      ).2.2.2.2.2.2.2.1,
   (claimC2 [] ⟨"Jo", "Um", "2001-02-03", "other", "", "555-1234", "", "", "", "", ""⟩).2.1⟩

/-- C8 witness: the listing theorem at a concrete two-row table and at
the empty table. -/
theorem claimC8_witness :
    List.Perm (getAllPatients [⟨1, "Zed", "Young"⟩, ⟨2, "Amy", "Adams"⟩])
      [⟨1, "Zed", "Young"⟩, ⟨2, "Amy", "Adams"⟩]
    ∧ List.Sorted nameLE (getAllPatients [⟨1, "Zed", "Young"⟩, ⟨2, "Amy", "Adams"⟩])
    ∧ getAllPatients [] = [] :=
  ⟨(claimC8 [⟨1, "Zed", "Young"⟩, ⟨2, "Amy", "Adams"⟩]).1,
   (claimC8 [⟨1, "Zed", "Young"⟩, ⟨2, "Amy", "Adams"⟩]).2.1,
   (claimC8 []).2.2⟩

/-- C10 witness: the validator theorem at a concrete record whose
first_name is whitespace-only (error reported), whose email is present
but malformed (error reported), and whose last_name is present (no error
reported). -/
theorem claimC10_witness :
    ("first_name" ∈ (validatePatientForm
        ⟨"  ", "Doe", "2000-01-01", "male", "bad-email", "", "", "", "", "", ""⟩).map Prod.fst)
    ∧ ("email" ∈ (validatePatientForm
        ⟨"  ", "Doe", "2000-01-01", "male", "bad-email", "", "", "", "", "", ""⟩).map Prod.fst)
    ∧ ("last_name" ∉ (validatePatientForm
        ⟨"  ", "Doe", "2000-01-01", "male", "bad-email", "", "", "", "", "", ""⟩).map Prod.fst) :=
  ⟨(claimC10 ⟨"  ", "Doe", "2000-01-01", "male", "bad-email", "", "", "", "", "", ""⟩).1.mpr
      (by decide),
   (claimC10 ⟨"  ", "Doe", "2000-01-01", "male", "bad-email", "", "", "", "", "", ""⟩
      ).2.2.2.2.1.mpr (by decide),
   fun h => absurd ((claimC10
      ⟨"  ", "Doe", "2000-01-01", "male", "bad-email", "", "", "", "", "", ""⟩).2.1.mp h)
      (by decide)⟩
